import Mathlib

/-!
# Verification of the rkv entry-path resolution and template-rendering engine

Shallow embedding of `src/utils/files.ts` (`getFilePath`, `processTemplate`,
`validateEntryType`) and the pure core of `src/commands/log.ts` (`logCommand`).

The source uses the Luxon date library.  Luxon itself is a third-party
dependency and is not part of the repository; the `toFormat` calls the source
makes on fixed format strings (`yyyy`, `MM`, `yyyy-MM-dd`, `'W'WW`, `WW`,
`kkkk`, `cccc`, `MMMM`, `MMM`, `yy`, `HH:mm`) are modelled here by concrete
Gregorian-calendar formatting functions, with the ISO week-numbering algorithm
implemented in full.  JavaScript `String.prototype.replace` with a global
literal pattern, and with the specific regex `/{{date:([^}]+)}}/g` used by the
source, are modelled by recursive scanners over the underlying character
lists with JS left-to-right, no-rescan semantics.
-/

namespace Rkv

/-! ## Calendar dates, modelling the Luxon `DateTime` values the code consumes -/

/-- A calendar date as fed to `getFilePath` / `processTemplate`
(year, month, day, as in a Luxon `DateTime` built from an object). -/
structure DateSpec where
  year : Nat
  month : Nat
  day : Nat
deriving DecidableEq, Repr

/-- Gregorian leap-year rule. -/
def isLeap (y : Nat) : Bool :=
  (y % 4 == 0 && y % 100 != 0) || y % 400 == 0

/-- Number of days in a month of a given year. -/
def daysInMonth (y m : Nat) : Nat :=
  match m with
  | 1 => 31 | 3 => 31 | 5 => 31 | 7 => 31 | 8 => 31 | 10 => 31 | 12 => 31
  | 4 => 30 | 6 => 30 | 9 => 30 | 11 => 30
  | 2 => if isLeap y then 29 else 28
  | _ => 0

/-- Luxon validity of a date built from (year, month, day): each unit must be
in range (`isValid` on the `DateTime`). -/
def DateSpec.isValid (d : DateSpec) : Bool :=
  1 ≤ d.month && d.month ≤ 12 && 1 ≤ d.day && d.day ≤ daysInMonth d.year d.month

/-- Luxon `invalidReason` for a `DateTime` whose units are out of range. -/
def DateSpec.invalidReason (_ : DateSpec) : String :=
  "unit out of range"

/-- Days in the months strictly before month `m` of year `y`. -/
def daysBeforeMonth (y m : Nat) : Nat :=
  let base :=
    match m with
    | 1 => 0 | 2 => 31 | 3 => 59 | 4 => 90 | 5 => 120 | 6 => 151
    | 7 => 181 | 8 => 212 | 9 => 243 | 10 => 273 | 11 => 304 | 12 => 334
    | _ => 0
  if 3 ≤ m && isLeap y then base + 1 else base

/-- Ordinal day of the year (1 = Jan 1). -/
def dayOfYear (d : DateSpec) : Nat :=
  daysBeforeMonth d.year d.month + d.day

/-- Rata-die day count in the proleptic Gregorian calendar
(0001-01-01 = day 1). -/
def rataDie (d : DateSpec) : Nat :=
  365 * (d.year - 1) + (d.year - 1) / 4 - (d.year - 1) / 100 + (d.year - 1) / 400
    + dayOfYear d

/-- ISO weekday, Monday = 1 .. Sunday = 7 (0001-01-01 was a Monday). -/
def isoWeekday (d : DateSpec) : Nat :=
  (rataDie d - 1) % 7 + 1

/-- Number of ISO weeks in a week-year: 53 iff Jan 1 is a Thursday, or the
year is leap and Jan 1 is a Wednesday; otherwise 52. -/
def isoWeeksInYear (y : Nat) : Nat :=
  let jan1 := isoWeekday ⟨y, 1, 1⟩
  if jan1 == 4 || (isLeap y && jan1 == 3) then 53 else 52

/-- ISO week-year and week number of a date (the week containing the date's
Thursday; weeks start on Monday). -/
def isoWeekCalc (d : DateSpec) : Nat × Nat :=
  let ord := dayOfYear d
  let wd := isoWeekday d
  let w := (ord + 10 - wd) / 7
  if w = 0 then (d.year - 1, isoWeeksInYear (d.year - 1))
  else if w > isoWeeksInYear d.year then (d.year + 1, 1)
  else (d.year, w)

/-- ISO week number (Luxon token `WW`, before padding). -/
def isoWeek (d : DateSpec) : Nat := (isoWeekCalc d).2

/-- ISO week-year (Luxon token `kkkk`, before padding). -/
def isoWeekYear (d : DateSpec) : Nat := (isoWeekCalc d).1

/-! ## Luxon `toFormat` components used by the source -/

/-- Zero-pad a natural number to two digits (Luxon `MM`, `dd`, `WW`, `HH`,
`mm`-style padding). -/
def pad2 (n : Nat) : String :=
  if n < 10 then "0" ++ toString n else toString n

/-- Zero-pad a natural number to four digits (Luxon `yyyy`, `kkkk`). -/
def pad4 (n : Nat) : String :=
  if n < 10 then "000" ++ toString n
  else if n < 100 then "00" ++ toString n
  else if n < 1000 then "0" ++ toString n
  else toString n

/-- `date.toFormat('yyyy')`. -/
def fmt_yyyy (d : DateSpec) : String := pad4 d.year

/-- `date.toFormat('yy')`: two-digit year. -/
def fmt_yy (d : DateSpec) : String := pad2 (d.year % 100)

/-- `date.toFormat('MM')`. -/
def fmt_MM (d : DateSpec) : String := pad2 d.month

/-- `date.toFormat('yyyy-MM-dd')`. -/
def fmt_yyyyMMdd (d : DateSpec) : String :=
  pad4 d.year ++ "-" ++ pad2 d.month ++ "-" ++ pad2 d.day

/-- `date.toFormat("'W'WW")`: literal `W` followed by the two-digit ISO week. -/
def fmt_Wweek (d : DateSpec) : String := "W" ++ pad2 (isoWeek d)

/-- `date.toFormat('WW')`. -/
def fmt_WW (d : DateSpec) : String := pad2 (isoWeek d)

/-- `date.toFormat('kkkk')`: ISO week-year, four digits. -/
def fmt_kkkk (d : DateSpec) : String := pad4 (isoWeekYear d)

/-- English month name (Luxon `MMMM` in the default `en-US` locale). -/
def monthName (m : Nat) : String :=
  match m with
  | 1 => "January" | 2 => "February" | 3 => "March" | 4 => "April"
  | 5 => "May" | 6 => "June" | 7 => "July" | 8 => "August"
  | 9 => "September" | 10 => "October" | 11 => "November" | 12 => "December"
  | _ => ""

/-- Abbreviated English month name (Luxon `MMM`). -/
def monthShortName (m : Nat) : String :=
  match m with
  | 1 => "Jan" | 2 => "Feb" | 3 => "Mar" | 4 => "Apr" | 5 => "May" | 6 => "Jun"
  | 7 => "Jul" | 8 => "Aug" | 9 => "Sep" | 10 => "Oct" | 11 => "Nov" | 12 => "Dec"
  | _ => ""

/-- English weekday name (Luxon `cccc`), from the ISO weekday number. -/
def weekdayName (wd : Nat) : String :=
  match wd with
  | 1 => "Monday" | 2 => "Tuesday" | 3 => "Wednesday" | 4 => "Thursday"
  | 5 => "Friday" | 6 => "Saturday" | 7 => "Sunday"
  | _ => ""

/-- `date.toFormat('cccc')`. -/
def fmt_cccc (d : DateSpec) : String := weekdayName (isoWeekday d)

/-- `date.toFormat('MMMM')`. -/
def fmt_MMMM (d : DateSpec) : String := monthName d.month

/-- `date.toFormat('MMM')`. -/
def fmt_MMM (d : DateSpec) : String := monthShortName d.month

/-- Modelled from the Luxon contract the source assumes: `date.toFormat(fmt)`
for a caller-supplied format string, as invoked from the `{{date:...}}`
template pass.  The format strings this repository's formatting vocabulary
covers are interpreted; any other format string is modelled as a failing
(`none`) call, matching the `try { toFormat } catch` structure of
`processTemplate`. -/
def luxonToFormat (fmt : String) (d : DateSpec) : Option String :=
  if fmt = "yyyy" then some (fmt_yyyy d)
  else if fmt = "yy" then some (fmt_yy d)
  else if fmt = "MM" then some (fmt_MM d)
  else if fmt = "MMM" then some (fmt_MMM d)
  else if fmt = "MMMM" then some (fmt_MMMM d)
  else if fmt = "yyyy-MM-dd" then some (fmt_yyyyMMdd d)
  else if fmt = "WW" then some (fmt_WW d)
  else if fmt = "kkkk" then some (fmt_kkkk d)
  else if fmt = "cccc" then some (fmt_cccc d)
  else none

/-- Modelled `date.toISO()` for a date-only `DateTime` (time and zone are not
part of the model; no claim depends on the exact value). -/
def luxonToISO (d : DateSpec) : Option String :=
  some (fmt_yyyyMMdd d ++ "T00:00:00.000+00:00")

/-- Modelled `date.toLocaleString(DateTime.DATE_SHORT)` in `en-US`. -/
def localeDateShort (d : DateSpec) : String :=
  toString d.month ++ "/" ++ toString d.day ++ "/" ++ pad4 d.year

/-- Modelled `date.toLocaleString(DateTime.DATE_FULL)` in `en-US`. -/
def localeDateFull (d : DateSpec) : String :=
  monthName d.month ++ " " ++ toString d.day ++ ", " ++ pad4 d.year

/-- Modelled `date.toLocaleString(DateTime.DATETIME_MED)` in `en-US` for a
date-only `DateTime` (midnight). -/
def localeDateTimeMed (d : DateSpec) : String :=
  monthShortName d.month ++ " " ++ toString d.day ++ ", " ++ pad4 d.year
    ++ ", 12:00 AM"

/-! ## Path resolution: `getFilePath` (src/utils/files.ts) -/

/-- The two error shapes thrown by `getFilePath` / `processTemplate`. -/
inductive RkvError where
  | invalidDate (message : String)
  | unknownEntryType (tag : String)
deriving DecidableEq, Repr

/-- Node's `path.join` on plain, separator-free, nonempty segments. -/
def pathJoin : List String → String
  | [] => ""
  | [s] => s
  | s :: rest => s ++ "/" ++ pathJoin rest

/-- JS `s.split('-')` on the underlying characters: cut at every `-`. -/
def splitDashAux : List Char → List Char → List (List Char)
  | [], acc => [acc.reverse]
  | c :: cs, acc =>
    if c = '-' then acc.reverse :: splitDashAux cs []
    else splitDashAux cs (c :: acc)

/-- JS `s.split('-')`. -/
def splitDash (s : String) : List String :=
  (splitDashAux s.data []).map fun l => ⟨l⟩

/-- `type.split('-')[1]`: second segment of the tag split on `-`
(JS yields `undefined` for a one-segment tag; the source only evaluates this
inside the weekly/monthly cases, where a second segment exists). -/
def splitSecond (type : String) : String :=
  (splitDash type).getD 1 ""

/-- `getFilePath` from src/utils/files.ts: maps an entry-type tag and a date
to the vault-relative path of the entry file, or throws. -/
def getFilePath (type : String) (date : DateSpec) : Except RkvError String :=
  if !date.isValid then
    .error (.invalidDate ("Invalid date provided: " ++ date.invalidReason))
  else
    let year := fmt_yyyy date
    let month := fmt_MM date
    let dateStr := fmt_yyyyMMdd date
    let week := fmt_Wweek date
    if type = "morning" ∨ type = "evening" then
      .ok (pathJoin ["daily", year, month, dateStr ++ "-" ++ type ++ ".md"])
    else if type = "weekly-start" ∨ type = "weekly-end" then
      .ok (pathJoin ["weekly", year,
        year ++ "-" ++ week ++ "-" ++ splitSecond type ++ ".md"])
    else if type = "monthly-start" ∨ type = "monthly-end" then
      .ok (pathJoin ["monthly", year,
        year ++ "-" ++ month ++ "-" ++ splitSecond type ++ ".md"])
    else
      .error (.unknownEntryType type)

/-- `validateEntryType` from src/utils/files.ts. -/
def validateEntryType (type : String) : Bool :=
  let validTypes := ["morning", "evening",
    "weekly-start", "weekly-end",
    "monthly-start", "monthly-end"]
  validTypes.contains type

/-! ## JS string replacement, on character lists -/

/-- JS `s.replace(/pat/g, rep)` for a literal pattern `pat`: scan left to
right, replace every occurrence, never rescan the replacement text.  The
scan is fuelled to stay structurally recursive; every step consumes at least
one character, so fuel equal to the input length (as supplied by
`replaceAllL`) is always enough. -/
def replaceAllFuel (pat rep : List Char) : Nat → List Char → List Char
  | 0, s => s
  | _ + 1, [] => []
  | fuel + 1, c :: cs =>
    if pat ≠ [] ∧ pat.isPrefixOf (c :: cs) then
      rep ++ replaceAllFuel pat rep fuel ((c :: cs).drop pat.length)
    else
      c :: replaceAllFuel pat rep fuel cs

/-- JS global literal replacement over a whole character list. -/
def replaceAllL (pat rep s : List Char) : List Char :=
  replaceAllFuel pat rep s.length s

/-- Does the literal pattern `pat` occur in `s`? -/
def containsL (pat : List Char) : List Char → Bool
  | [] => pat.isEmpty
  | c :: cs => pat.isPrefixOf (c :: cs) || containsL pat cs

/-- String wrapper for `replaceAllL`. -/
def jsReplaceAll (pat rep s : String) : String :=
  ⟨replaceAllL pat.data rep.data s.data⟩

/-- String wrapper for `containsL`. -/
def jsContains (pat s : String) : Bool :=
  containsL pat.data s.data

/-- One attempted match of `/{{date:([^}]+)}}/` at the head of `s` (where `s`
is the text right after a `{{date:` prefix): the capture is a maximal nonempty
run of non-`}` characters, which must be followed by `}}`.  Returns the
capture and the rest after the match. -/
def fmtMatchAt (s : List Char) : Option (List Char × List Char) :=
  let run := s.takeWhile (fun c => c ≠ '}')
  let rest := s.dropWhile (fun c => c ≠ '}')
  if run ≠ [] ∧ rest.take 2 = ['}', '}'] then
    some (run, rest.drop 2)
  else
    none

/-- The literal prefix of the `/{{date:([^}]+)}}/g` pattern. -/
def dfPat : List Char := "\x7b\x7bdate:".data

/-- JS `s.replace(/{{date:([^}]+)}}/g, cb)`: scan left to right; at each
occurrence of the pattern, substitute `cb capture` and continue after the
match; the callback here models the source's
`try { return toFormat(format) } catch { warn; return placeholder }`, so it
yields the replacement text together with any warning emitted.  Fuelled as in
`replaceAllFuel`; each step consumes at least one character (a full match
consumes at least ten), so fuel equal to the input length always suffices. -/
def replaceDateFmtFuel (cb : List Char → List Char × List String) :
    Nat → List Char → List Char × List String
  | 0, s => (s, [])
  | _ + 1, [] => ([], [])
  | fuel + 1, c :: cs =>
    if dfPat.isPrefixOf (c :: cs) then
      match fmtMatchAt ((c :: cs).drop dfPat.length) with
      | some (run, rest) =>
        let r := cb run
        let tail := replaceDateFmtFuel cb fuel rest
        (r.1 ++ tail.1, r.2 ++ tail.2)
      | none =>
        let tail := replaceDateFmtFuel cb fuel cs
        (c :: tail.1, tail.2)
    else
      let tail := replaceDateFmtFuel cb fuel cs
      (c :: tail.1, tail.2)

/-- The `{{date:...}}` substitution pass over a whole character list. -/
def replaceDateFmtL (cb : List Char → List Char × List String)
    (s : List Char) : List Char × List String :=
  replaceDateFmtFuel cb s.length s

/-- Does `/{{date:([^}]+)}}/` match anywhere in `s`? -/
def hasFmtMatchL : List Char → Bool
  | [] => false
  | c :: cs =>
    (dfPat.isPrefixOf (c :: cs) &&
      (fmtMatchAt ((c :: cs).drop dfPat.length)).isSome)
    || hasFmtMatchL cs

/-! ## Template rendering: `processTemplate` (src/utils/files.ts) -/

/-- The callback of the `{{date:([^}]+)}}` pass for a given date: attempt
`toFormat`; on failure warn `Invalid date format token: <format>` and emit the
original placeholder back. -/
def dateFmtCallback (date : DateSpec) (run : List Char) :
    List Char × List String :=
  match luxonToFormat ⟨run⟩ date with
  | some out => (out.data, [])
  | none =>
    (dfPat ++ run ++ ['}', '}'],
     ["Invalid date format token: " ++ String.mk run])

/-- `processTemplate` from src/utils/files.ts: the sequence of substitution
passes, in source order, returning the rendered text together with the
warnings emitted on the diagnostic channel (`console.warn`). -/
def processTemplate (template : String) (date : DateSpec) :
    Except RkvError (String × List String) :=
  if !date.isValid then
    .error (.invalidDate
      ("Invalid date provided for template processing: " ++ date.invalidReason))
  else
    let p1 := jsReplaceAll "{{date}}" (fmt_yyyyMMdd date) template
    let p2 := replaceDateFmtL (dateFmtCallback date) p1.data
    let t2 : String := ⟨p2.1⟩
    let t3 := jsReplaceAll "{{dateISO}}" ((luxonToISO date).getD "") t2
    let t4 := jsReplaceAll "{{dateShort}}" (localeDateShort date) t3
    let t5 := jsReplaceAll "{{dateFull}}" (localeDateFull date) t4
    let t6 := jsReplaceAll "{{dateTime}}" (localeDateTimeMed date) t5
    let t7 := jsReplaceAll "{{weekNumber}}" (fmt_WW date) t6
    let t8 := jsReplaceAll "{{weekYear}}" (fmt_kkkk date) t7
    let t9 := jsReplaceAll "{{weekday}}" (fmt_cccc date) t8
    let t10 := jsReplaceAll "{{monthName}}" (fmt_MMMM date) t9
    let t11 := jsReplaceAll "{{monthShort}}" (fmt_MMM date) t10
    let t12 := jsReplaceAll "{{monthNumber}}" (fmt_MM date) t11
    let t13 := jsReplaceAll "{{year}}" (fmt_yyyy date) t12
    let t14 := jsReplaceAll "{{yearShort}}" (fmt_yy date) t13
    .ok (t14, p2.2)

/-- The literal token patterns recognized by `processTemplate`
(the `{{date:...}}` pattern is handled separately by `hasFmtMatchL`). -/
def recognizedLiterals : List String :=
  ["{{date}}", "{{dateISO}}", "{{dateShort}}", "{{dateFull}}", "{{dateTime}}",
   "{{weekNumber}}", "{{weekYear}}", "{{weekday}}",
   "{{monthName}}", "{{monthShort}}", "{{monthNumber}}",
   "{{year}}", "{{yearShort}}"]

/-- A template contains a token `processTemplate` recognizes: one of the
literal placeholders, or a match of the parametrized `{{date:...}}` pattern. -/
def hasRecognizedToken (t : String) : Bool :=
  recognizedLiterals.any (fun p => jsContains p t) || hasFmtMatchL t.data

/-! ## Quick capture: the pure core of `logCommand` (src/commands/log.ts) -/

/-- A wall-clock instant, as `DateTime.now()` supplies it to `logCommand`:
the calendar date plus the hour and minute used for the timestamp. -/
structure ClockDateTime where
  date : DateSpec
  hour : Nat
  minute : Nat
deriving DecidableEq, Repr

/-- `now.toFormat('HH:mm')`: two-digit 24-hour time. -/
def fmt_HHmm (now : ClockDateTime) : String :=
  pad2 now.hour ++ ":" ++ pad2 now.minute

/-- The capture-file path built by `logCommand`:
`path.join(config.vaultPath, 'inbox', now.toFormat('yyyy-MM-dd') + '-captures.md')`. -/
def logCaptureFile (vaultPath : String) (now : ClockDateTime) : String :=
  pathJoin [vaultPath, "inbox", fmt_yyyyMMdd now.date ++ "-captures.md"]

/-- The line `logCommand` appends:
``- ${now.toFormat('HH:mm')} - ${messageParts.join(' ')}\n``. -/
def logEntry (now : ClockDateTime) (messageParts : List String) : String :=
  "- " ++ fmt_HHmm now ++ " - " ++ String.intercalate " " messageParts ++ "\n"

end Rkv

deriving instance DecidableEq for Except

namespace Rkv

/-! ## Lemmas about the replacement scanners -/

/-- A literal-pattern replacement pass is the identity on text in which the
pattern does not occur (for any amount of fuel). -/
theorem replaceAllFuel_of_not_contains (pat rep : List Char) :
    ∀ (fuel : Nat) (s : List Char), containsL pat s = false →
      replaceAllFuel pat rep fuel s = s := by
  intro fuel
  induction fuel with
  | zero => intro s _; rfl
  | succ n ih =>
    intro s h
    cases s with
    | nil => rfl
    | cons c cs =>
      simp only [containsL, Bool.or_eq_false_iff] at h
      rw [replaceAllFuel, if_neg, ih cs h.2]
      rintro ⟨-, hpre⟩
      rw [h.1] at hpre
      cases hpre

/-- String version of `replaceAllFuel_of_not_contains`. -/
theorem jsReplaceAll_id (pat rep s : String) (h : jsContains pat s = false) :
    jsReplaceAll pat rep s = s := by
  unfold jsReplaceAll replaceAllL
  rw [replaceAllFuel_of_not_contains _ _ _ _ h]

/-- The `{{date:...}}` pass is the identity (with no warnings) on text with
no match of the pattern, for any callback and any amount of fuel. -/
theorem replaceDateFmtFuel_of_no_match (cb : List Char → List Char × List String) :
    ∀ (fuel : Nat) (s : List Char), hasFmtMatchL s = false →
      replaceDateFmtFuel cb fuel s = (s, []) := by
  intro fuel
  induction fuel with
  | zero => intro s _; rfl
  | succ n ih =>
    intro s h
    cases s with
    | nil => rfl
    | cons c cs =>
      simp only [hasFmtMatchL, Bool.or_eq_false_iff, Bool.and_eq_false_iff] at h
      rw [replaceDateFmtFuel]
      by_cases hp : dfPat.isPrefixOf (c :: cs)
      · rw [if_pos hp]
        rcases h.1 with h1 | h1
        · rw [h1] at hp; cases hp
        · cases hm : fmtMatchAt ((c :: cs).drop dfPat.length) with
          | some pr =>
            rw [hm] at h1
            cases h1
          | none =>
            simp only [ih cs h.2]
      · rw [if_neg hp, ih cs h.2]

/-- List-level version of the no-match identity for the whole pass. -/
theorem replaceDateFmtL_id (cb : List Char → List Char × List String)
    (s : List Char) (h : hasFmtMatchL s = false) :
    replaceDateFmtL cb s = (s, []) := by
  unfold replaceDateFmtL
  exact replaceDateFmtFuel_of_no_match cb s.length s h

/-- Helper: `pad2` always yields exactly two characters below 100. -/
theorem pad2_length (n : Nat) (h : n < 100) : (pad2 n).length = 2 := by
  revert h
  revert n
  decide

/-- Helper: a list is a Boolean prefix of itself followed by anything. -/
theorem isPrefixOfAppendSelf (l r : List Char) : l.isPrefixOf (l ++ r) = true := by
  induction l with
  | nil => simp [List.isPrefixOf]
  | cons c cs ih => simp [List.isPrefixOf, ih]

/-- Helper: valid date, type tag outside the six known ones: `getFilePath`
takes its default branch. -/
theorem getFilePath_unknown_of_not_mem (type : String) (d : DateSpec)
    (hv : d.isValid = true)
    (hm : type ∉ (["morning", "evening", "weekly-start", "weekly-end",
      "monthly-start", "monthly-end"] : List String)) :
    getFilePath type d = .error (.unknownEntryType type) := by
  simp only [List.mem_cons, List.not_mem_nil, or_false, not_or] at hm
  obtain ⟨n1, n2, n3, n4, n5, n6⟩ := hm
  have hA : ¬(type = "morning" ∨ type = "evening") := by tauto
  have hB : ¬(type = "weekly-start" ∨ type = "weekly-end") := by tauto
  have hC : ¬(type = "monthly-start" ∨ type = "monthly-end") := by tauto
  simp only [getFilePath, hv, Bool.not_true, Bool.false_eq_true, if_false,
    if_neg hA, if_neg hB, if_neg hC]

/-- Helper: valid date, one of the six known tags: `getFilePath` yields a
path. -/
theorem getFilePath_ok_of_mem (type : String) (d : DateSpec)
    (hv : d.isValid = true)
    (hm : type ∈ (["morning", "evening", "weekly-start", "weekly-end",
      "monthly-start", "monthly-end"] : List String)) :
    ∃ p, getFilePath type d = .ok p := by
  simp only [List.mem_cons, List.not_mem_nil, or_false] at hm
  rcases hm with rfl | rfl | rfl | rfl | rfl | rfl <;>
    (unfold getFilePath; rw [hv]; exact ⟨_, rfl⟩)

/-- Helper: a pattern whose first character never occurs in the text has no
occurrence in the text. -/
theorem containsL_of_head_notin (c0 : Char) (p : List Char) (s : List Char)
    (hs : ∀ c ∈ s, c ≠ c0) : containsL (c0 :: p) s = false := by
  induction s with
  | nil => rfl
  | cons a as ih =>
    have ha : (c0 == a) = false := by
      have := hs a (List.mem_cons_self a as)
      simp [beq_iff_eq]
      intro hEq
      exact this hEq.symm
    simp only [containsL, Bool.or_eq_false_iff]
    refine ⟨?_, ih fun c hc => hs c (List.mem_cons_of_mem a hc)⟩
    simp [List.isPrefixOf, ha]

/-- Helper: a pattern starting with `{` has no occurrence in
`{{date:<junk>` when `junk` contains no `{` and the pattern matches at
neither of the two leading positions. -/
theorem containsL_braced_false (q junk : List Char)
    (hjunk : ∀ c ∈ junk, c ≠ '{')
    (h0 : List.isPrefixOf ('{' :: q)
      ('{' :: '{' :: 'd' :: 'a' :: 't' :: 'e' :: ':' :: junk) = false)
    (h1 : List.isPrefixOf ('{' :: q)
      ('{' :: 'd' :: 'a' :: 't' :: 'e' :: ':' :: junk) = false) :
    containsL ('{' :: q)
      ('{' :: '{' :: 'd' :: 'a' :: 't' :: 'e' :: ':' :: junk) = false := by
  have hj : containsL ('{' :: q) junk = false :=
    containsL_of_head_notin '{' q junk hjunk
  simp only [containsL, h0, h1, hj, Bool.false_or, Bool.or_eq_false_iff]
  refine ⟨?_, ?_, ?_, ?_, ?_⟩ <;> simp [List.isPrefixOf]

/-- Helper: `takeWhile` passes over a block whose elements all satisfy the
predicate. -/
theorem takeWhile_append_sat (p : Char → Bool) (a b : List Char)
    (ha : ∀ c ∈ a, p c = true) :
    (a ++ b).takeWhile p = a ++ b.takeWhile p := by
  induction a with
  | nil => rfl
  | cons c cs ih =>
    have hc := ha c (List.mem_cons_self c cs)
    simp [List.takeWhile_cons, hc, ih fun x hx => ha x (List.mem_cons_of_mem c hx)]

/-- Helper: `dropWhile` drops a block whose elements all satisfy the
predicate. -/
theorem dropWhile_append_sat (p : Char → Bool) (a b : List Char)
    (ha : ∀ c ∈ a, p c = true) :
    (a ++ b).dropWhile p = b.dropWhile p := by
  induction a with
  | nil => rfl
  | cons c cs ih =>
    have hc := ha c (List.mem_cons_self c cs)
    simp [List.dropWhile_cons, hc, ih fun x hx => ha x (List.mem_cons_of_mem c hx)]

/-- Helper: the regex pass on empty text yields empty text and no warnings. -/
theorem replaceDateFmtFuel_nil (cb : List Char → List Char × List String)
    (fuel : Nat) : replaceDateFmtFuel cb fuel [] = ([], []) := by
  cases fuel <;> rfl

/-- Helper: a well-formed format capture followed by `}}` matches, capturing
the whole format. -/
theorem fmtMatchAt_full (f : List Char) (hne : f ≠ [])
    (hnobr : ∀ c ∈ f, c ≠ '}') :
    fmtMatchAt (f ++ ['}', '}']) = some (f, []) := by
  have hp : ∀ c ∈ f, (fun c => decide (c ≠ '}')) c = true := by
    intro c hc
    simp [hnobr c hc]
  unfold fmtMatchAt
  rw [takeWhile_append_sat _ _ _ hp, dropWhile_append_sat _ _ _ hp]
  have htw : List.takeWhile (fun c => decide (c ≠ '}')) ['}', '}'] = [] := rfl
  have hdw : List.dropWhile (fun c => decide (c ≠ '}')) ['}', '}'] = ['}', '}'] := rfl
  rw [htw, hdw, List.append_nil]
  rw [if_pos ⟨hne, rfl⟩]
  rfl

/-- Helper: one step of the regex pass on text that is exactly one
`{{date:<f>}}` marker consumes the whole marker and applies the callback. -/
theorem replaceDateFmtFuel_match_head (cb : List Char → List Char × List String)
    (fuel : Nat) (f : List Char) (hne : f ≠ [])
    (hnobr : ∀ c ∈ f, c ≠ '}') :
    replaceDateFmtFuel cb (fuel + 1) (dfPat ++ (f ++ ['}', '}'])) =
      ((cb f).1, (cb f).2) := by
  have hds : dfPat ++ (f ++ ['}', '}']) =
      '{' :: '{' :: 'd' :: 'a' :: 't' :: 'e' :: ':' :: (f ++ ['}', '}']) := rfl
  rw [hds, replaceDateFmtFuel]
  have hpre : dfPat.isPrefixOf
      ('{' :: '{' :: 'd' :: 'a' :: 't' :: 'e' :: ':' :: (f ++ ['}', '}'])) = true := by
    rw [← hds]; exact isPrefixOfAppendSelf _ _
  rw [if_pos hpre]
  have hdrop : ('{' :: '{' :: 'd' :: 'a' :: 't' :: 'e' :: ':' ::
      (f ++ ['}', '}'])).drop dfPat.length = f ++ ['}', '}'] := rfl
  rw [hdrop, fmtMatchAt_full f hne hnobr]
  simp [replaceDateFmtFuel_nil]

/-- Helper: the whole regex pass on a single well-formed `{{date:<f>}}`
marker is the callback's output. -/
theorem replaceDateFmtL_single (cb : List Char → List Char × List String)
    (f : List Char) (hne : f ≠ []) (hnobr : ∀ c ∈ f, c ≠ '}') :
    replaceDateFmtL cb (dfPat ++ (f ++ ['}', '}'])) = ((cb f).1, (cb f).2) := by
  unfold replaceDateFmtL
  have h7 : dfPat.length = 7 := rfl
  have hlen : (dfPat ++ (f ++ ['}', '}'])).length = (f.length + 8) + 1 := by
    have h2 : (['}', '}'] : List Char).length = 2 := rfl
    rw [List.length_append, List.length_append, h7, h2]
    omega
  rw [hlen]
  exact replaceDateFmtFuel_match_head cb (f.length + 8) f hne hnobr

/-- Helper: `processTemplate` is the identity (and warns nothing) on a
template with no recognized token. -/
theorem processTemplate_of_no_token (t : String) (d : DateSpec)
    (hv : d.isValid = true) (h : hasRecognizedToken t = false) :
    processTemplate t d = .ok (t, []) := by
  simp only [hasRecognizedToken, recognizedLiterals, List.any_cons, List.any_nil,
    Bool.or_eq_false_iff] at h
  obtain ⟨⟨h1, h2, h3, h4, h5, h6, h7, h8, h9, h10, h11, h12, h13, -⟩, hf⟩ := h
  unfold processTemplate
  rw [if_neg (by simp [hv])]
  simp only
  rw [jsReplaceAll_id _ _ _ h1]
  rw [replaceDateFmtL_id _ _ hf]
  simp only
  rw [jsReplaceAll_id _ _ _ h2, jsReplaceAll_id _ _ _ h3,
    jsReplaceAll_id _ _ _ h4, jsReplaceAll_id _ _ _ h5,
    jsReplaceAll_id _ _ _ h6, jsReplaceAll_id _ _ _ h7,
    jsReplaceAll_id _ _ _ h8, jsReplaceAll_id _ _ _ h9,
    jsReplaceAll_id _ _ _ h10, jsReplaceAll_id _ _ _ h11,
    jsReplaceAll_id _ _ _ h12, jsReplaceAll_id _ _ _ h13]

/-! ## Claims -/

/-- C1: for every valid calendar date and each of the six entry types,
`getFilePath` returns the relative path of the shape in the spec's table, with
zero-padded year/month/day/week components; in particular
`getFilePath('morning', 2024-03-05) = 'daily/2024/03/2024-03-05-morning.md'`
and `getFilePath('monthly-end', 2024-12-01) = 'monthly/2024/2024-12-end.md'`. -/
theorem getFilePath_matches_table (d : DateSpec) (hv : d.isValid = true) :
    (getFilePath "morning" d =
      .ok ("daily" ++ "/" ++ (pad4 d.year ++ "/" ++ (pad2 d.month ++ "/" ++
        (pad4 d.year ++ "-" ++ pad2 d.month ++ "-" ++ pad2 d.day ++ "-" ++
          "morning" ++ ".md")))) ∧
    getFilePath "evening" d =
      .ok ("daily" ++ "/" ++ (pad4 d.year ++ "/" ++ (pad2 d.month ++ "/" ++
        (pad4 d.year ++ "-" ++ pad2 d.month ++ "-" ++ pad2 d.day ++ "-" ++
          "evening" ++ ".md")))) ∧
    getFilePath "weekly-start" d =
      .ok ("weekly" ++ "/" ++ (pad4 d.year ++ "/" ++
        (pad4 d.year ++ "-" ++ ("W" ++ pad2 (isoWeek d)) ++ "-" ++
          "start" ++ ".md"))) ∧
    getFilePath "weekly-end" d =
      .ok ("weekly" ++ "/" ++ (pad4 d.year ++ "/" ++
        (pad4 d.year ++ "-" ++ ("W" ++ pad2 (isoWeek d)) ++ "-" ++
          "end" ++ ".md"))) ∧
    getFilePath "monthly-start" d =
      .ok ("monthly" ++ "/" ++ (pad4 d.year ++ "/" ++
        (pad4 d.year ++ "-" ++ pad2 d.month ++ "-" ++ "start" ++ ".md"))) ∧
    getFilePath "monthly-end" d =
      .ok ("monthly" ++ "/" ++ (pad4 d.year ++ "/" ++
        (pad4 d.year ++ "-" ++ pad2 d.month ++ "-" ++ "end" ++ ".md")))) ∧
    getFilePath "morning" ⟨2024, 3, 5⟩ =
      .ok "daily/2024/03/2024-03-05-morning.md" ∧
    getFilePath "monthly-end" ⟨2024, 12, 1⟩ =
      .ok "monthly/2024/2024-12-end.md" := by
  refine ⟨⟨?_, ?_, ?_, ?_, ?_, ?_⟩, by decide, by decide⟩ <;>
    (unfold getFilePath; rw [hv]; rfl)

/-- C1 witness: the table theorem at 2024-03-05. -/
theorem getFilePath_matches_table_witness :
    (⟨2024, 3, 5⟩ : DateSpec).isValid = true ∧
    getFilePath "morning" ⟨2024, 3, 5⟩ =
      .ok "daily/2024/03/2024-03-05-morning.md" :=
  ⟨by decide, (getFilePath_matches_table ⟨2024, 3, 5⟩ (by decide)).2.1⟩

/-- C2: for every valid date, rendering a template that is a parametrized
date marker `{{date:<f>}}` whose format string the date library cannot
interpret (as in `{{date:not-a-real-format}}`) leaves the placeholder text
verbatim, emits the non-fatal warning `Invalid date format token: <f>` on the
diagnostic channel, and returns normally rather than raising. -/
theorem processTemplate_invalid_format_token (d : DateSpec) (f : String)
    (hv : d.isValid = true) (hne : f.data ≠ [])
    (hbr : ∀ c ∈ f.data, c ≠ '{' ∧ c ≠ '}')
    (hbad : luxonToFormat f d = none) :
    processTemplate ("\x7b\x7bdate:" ++ f ++ "\x7d\x7d") d =
      .ok ("\x7b\x7bdate:" ++ f ++ "\x7d\x7d", ["Invalid date format token: " ++ f]) := by
  have ht : ("\x7b\x7bdate:" ++ f ++ "\x7d\x7d").data = dfPat ++ (f.data ++ ['}', '}']) := by
    rw [String.data_append, String.data_append, List.append_assoc]
    rfl
  have hjunk : ∀ c ∈ f.data ++ ['}', '}'], c ≠ '{' := by
    intro c hc
    rcases List.mem_append.mp hc with h | h
    · exact (hbr c h).1
    · simp only [List.mem_cons, List.not_mem_nil, or_false] at h
      rcases h with rfl | rfl <;> decide
  have hcont : ∀ p ∈ recognizedLiterals,
      jsContains p ("\x7b\x7bdate:" ++ f ++ "\x7d\x7d") = false := by
    intro p hp
    unfold jsContains
    rw [ht]
    fin_cases hp <;>
      exact containsL_braced_false _ _ hjunk (by simp [List.isPrefixOf])
        (by simp [List.isPrefixOf])
  have hA1 := hcont "{{date}}" (by simp [recognizedLiterals])
  have hA2 := hcont "{{dateISO}}" (by simp [recognizedLiterals])
  have hA3 := hcont "{{dateShort}}" (by simp [recognizedLiterals])
  have hA4 := hcont "{{dateFull}}" (by simp [recognizedLiterals])
  have hA5 := hcont "{{dateTime}}" (by simp [recognizedLiterals])
  have hA6 := hcont "{{weekNumber}}" (by simp [recognizedLiterals])
  have hA7 := hcont "{{weekYear}}" (by simp [recognizedLiterals])
  have hA8 := hcont "{{weekday}}" (by simp [recognizedLiterals])
  have hA9 := hcont "{{monthName}}" (by simp [recognizedLiterals])
  have hA10 := hcont "{{monthShort}}" (by simp [recognizedLiterals])
  have hA11 := hcont "{{monthNumber}}" (by simp [recognizedLiterals])
  have hA12 := hcont "{{year}}" (by simp [recognizedLiterals])
  have hA13 := hcont "{{yearShort}}" (by simp [recognizedLiterals])
  have hcb : dateFmtCallback d f.data =
      (dfPat ++ f.data ++ ['}', '}'], ["Invalid date format token: " ++ f]) := by
    unfold dateFmtCallback
    rw [show (⟨f.data⟩ : String) = f from rfl, hbad]
  have hmk : (⟨dfPat ++ f.data ++ ['}', '}']⟩ : String) = "\x7b\x7bdate:" ++ f ++ "\x7d\x7d" := by
    rw [List.append_assoc, ← ht]
  unfold processTemplate
  rw [if_neg (by simp [hv])]
  simp only
  rw [jsReplaceAll_id _ _ _ hA1]
  rw [ht, replaceDateFmtL_single _ _ hne (fun c hc => (hbr c hc).2), hcb]
  simp only
  rw [hmk]
  rw [jsReplaceAll_id _ _ _ hA2, jsReplaceAll_id _ _ _ hA3, jsReplaceAll_id _ _ _ hA4,
    jsReplaceAll_id _ _ _ hA5, jsReplaceAll_id _ _ _ hA6, jsReplaceAll_id _ _ _ hA7,
    jsReplaceAll_id _ _ _ hA8, jsReplaceAll_id _ _ _ hA9, jsReplaceAll_id _ _ _ hA10,
    jsReplaceAll_id _ _ _ hA11, jsReplaceAll_id _ _ _ hA12, jsReplaceAll_id _ _ _ hA13]

/-- C2 witness: the spec's own scenario `{{date:not-a-real-format}}`. -/
theorem processTemplate_invalid_format_token_witness :
    (⟨2024, 1, 15⟩ : DateSpec).isValid = true ∧
    "not-a-real-format".data ≠ [] ∧
    (∀ c ∈ "not-a-real-format".data, c ≠ '{' ∧ c ≠ '}') ∧
    luxonToFormat "not-a-real-format" ⟨2024, 1, 15⟩ = none ∧
    processTemplate ("\x7b\x7bdate:" ++ "not-a-real-format" ++ "\x7d\x7d") ⟨2024, 1, 15⟩ =
      .ok ("\x7b\x7bdate:" ++ "not-a-real-format" ++ "\x7d\x7d",
        ["Invalid date format token: " ++ "not-a-real-format"]) :=
  ⟨by decide, by decide, by decide, by decide,
    processTemplate_invalid_format_token ⟨2024, 1, 15⟩ "not-a-real-format"
      (by decide) (by decide) (by decide) (by decide)⟩

/-- C3: for every invalid date, every entry type tag and every template, both
`getFilePath` and `processTemplate` fail immediately with the invalid-date
error (carrying the invalid reason) before any type-specific branching or any
substitution pass runs, and never silently default the date. -/
theorem invalid_date_rejected_first (type template : String) (d : DateSpec)
    (hd : d.isValid = false) :
    getFilePath type d =
      .error (.invalidDate ("Invalid date provided: " ++ d.invalidReason)) ∧
    processTemplate template d =
      .error (.invalidDate
        ("Invalid date provided for template processing: " ++ d.invalidReason)) := by
  unfold getFilePath processTemplate
  rw [hd]
  exact ⟨rfl, rfl⟩

/-- C3 witness: month 13 is rejected, even for an unknown type tag (the
invalid-date check precedes the type dispatch). -/
theorem invalid_date_rejected_first_witness :
    (⟨2024, 13, 1⟩ : DateSpec).isValid = false ∧
    (getFilePath "bogus-type" ⟨2024, 13, 1⟩ =
      .error (.invalidDate
        ("Invalid date provided: " ++ DateSpec.invalidReason ⟨2024, 13, 1⟩)) ∧
    processTemplate "{{date}}" ⟨2024, 13, 1⟩ =
      .error (.invalidDate ("Invalid date provided for template processing: " ++
        DateSpec.invalidReason ⟨2024, 13, 1⟩))) :=
  ⟨by decide, invalid_date_rejected_first "bogus-type" "{{date}}" ⟨2024, 13, 1⟩ (by decide)⟩

/-- C4: for every valid date and every type tag outside the six-element
enumeration, `getFilePath` fails with the unknown-entry-type error carrying
the offending tag, and produces no path. -/
theorem unknown_entry_type_rejected (type : String) (d : DateSpec)
    (hv : d.isValid = true)
    (hm : type ∉ (["morning", "evening", "weekly-start", "weekly-end",
      "monthly-start", "monthly-end"] : List String)) :
    getFilePath type d = .error (.unknownEntryType type) :=
  getFilePath_unknown_of_not_mem type d hv hm

/-- C4 witness: `bogus-type` on a valid date. -/
theorem unknown_entry_type_rejected_witness :
    (⟨2024, 3, 5⟩ : DateSpec).isValid = true ∧
    "bogus-type" ∉ (["morning", "evening", "weekly-start", "weekly-end",
      "monthly-start", "monthly-end"] : List String) ∧
    getFilePath "bogus-type" ⟨2024, 3, 5⟩ =
      .error (.unknownEntryType "bogus-type") :=
  ⟨by decide, by decide,
    unknown_entry_type_rejected "bogus-type" ⟨2024, 3, 5⟩ (by decide) (by decide)⟩

/-- C5: for every valid date, the weekly-start and weekly-end paths differ
only in the trailing `start`/`end` before `.md` (they share the whole prefix),
likewise the monthly pair; and the suffix equals the second segment of the
type tag split on `-`. -/
theorem start_end_suffix_from_split (d : DateSpec) (hv : d.isValid = true) :
    (∃ pre, getFilePath "weekly-start" d = .ok (pre ++ "start" ++ ".md") ∧
            getFilePath "weekly-end" d = .ok (pre ++ "end" ++ ".md")) ∧
    (∃ pre, getFilePath "monthly-start" d = .ok (pre ++ "start" ++ ".md") ∧
            getFilePath "monthly-end" d = .ok (pre ++ "end" ++ ".md")) ∧
    splitSecond "weekly-start" = "start" ∧ splitSecond "weekly-end" = "end" ∧
    splitSecond "monthly-start" = "start" ∧ splitSecond "monthly-end" = "end" := by
  have hws : getFilePath "weekly-start" d =
      .ok ("weekly" ++ "/" ++ (pad4 d.year ++ "/" ++
        (pad4 d.year ++ "-" ++ ("W" ++ pad2 (isoWeek d)) ++ "-" ++
          "start" ++ ".md"))) := by
    unfold getFilePath; rw [hv]; rfl
  have hwe : getFilePath "weekly-end" d =
      .ok ("weekly" ++ "/" ++ (pad4 d.year ++ "/" ++
        (pad4 d.year ++ "-" ++ ("W" ++ pad2 (isoWeek d)) ++ "-" ++
          "end" ++ ".md"))) := by
    unfold getFilePath; rw [hv]; rfl
  have hms : getFilePath "monthly-start" d =
      .ok ("monthly" ++ "/" ++ (pad4 d.year ++ "/" ++
        (pad4 d.year ++ "-" ++ pad2 d.month ++ "-" ++ "start" ++ ".md"))) := by
    unfold getFilePath; rw [hv]; rfl
  have hme : getFilePath "monthly-end" d =
      .ok ("monthly" ++ "/" ++ (pad4 d.year ++ "/" ++
        (pad4 d.year ++ "-" ++ pad2 d.month ++ "-" ++ "end" ++ ".md"))) := by
    unfold getFilePath; rw [hv]; rfl
  refine ⟨⟨"weekly" ++ "/" ++ (pad4 d.year ++ "/" ++
      (pad4 d.year ++ "-" ++ ("W" ++ pad2 (isoWeek d)) ++ "-")), ?_, ?_⟩,
    ⟨"monthly" ++ "/" ++ (pad4 d.year ++ "/" ++
      (pad4 d.year ++ "-" ++ pad2 d.month ++ "-")), ?_, ?_⟩,
    by decide, by decide, by decide, by decide⟩
  · rw [hws]; simp only [Except.ok.injEq, String.append_assoc]
  · rw [hwe]; simp only [Except.ok.injEq, String.append_assoc]
  · rw [hms]; simp only [Except.ok.injEq, String.append_assoc]
  · rw [hme]; simp only [Except.ok.injEq, String.append_assoc]

/-- C5 witness: the shared-prefix property at 2024-03-05. -/
theorem start_end_suffix_from_split_witness :
    (⟨2024, 3, 5⟩ : DateSpec).isValid = true ∧
    (∃ pre, getFilePath "weekly-start" ⟨2024, 3, 5⟩ = .ok (pre ++ "start" ++ ".md") ∧
            getFilePath "weekly-end" ⟨2024, 3, 5⟩ = .ok (pre ++ "end" ++ ".md")) :=
  ⟨by decide, (start_end_suffix_from_split ⟨2024, 3, 5⟩ (by decide)).1⟩

/-- C6: rendering `{{weekNumber}} {{monthName}} {{year}}` for 2024-01-15
yields exactly `03 January 2024` (ISO week 3, full month name, four-digit
year), with no warnings. -/
theorem render_week_month_year_example :
    processTemplate "{{weekNumber}} {{monthName}} {{year}}" ⟨2024, 1, 15⟩ =
      .ok ("03 January 2024", []) ∧
    isoWeek ⟨2024, 1, 15⟩ = 3 ∧
    fmt_MMMM ⟨2024, 1, 15⟩ = "January" ∧
    fmt_yyyy ⟨2024, 1, 15⟩ = "2024" := by
  decide

/-- C7: for every valid date, `processTemplate` is the identity (with no
warnings) on template text containing no recognized token, hence idempotent
on such text; unknown token shapes pass through unchanged and are never
rejected. -/
theorem processTemplate_identity_no_tokens (t : String) (d : DateSpec)
    (hv : d.isValid = true) (h : hasRecognizedToken t = false) :
    processTemplate t d = .ok (t, []) :=
  processTemplate_of_no_token t d hv h

/-- C7 witness: a template with an unrecognized token shape passes through
unchanged. -/
theorem processTemplate_identity_no_tokens_witness :
    (⟨2024, 1, 15⟩ : DateSpec).isValid = true ∧
    hasRecognizedToken "hello \x7b\x7bunknown\x7d\x7d world \x7bdate\x7d \x7b\x7b" = false ∧
    processTemplate "hello \x7b\x7bunknown\x7d\x7d world \x7bdate\x7d \x7b\x7b" ⟨2024, 1, 15⟩ =
      .ok ("hello \x7b\x7bunknown\x7d\x7d world \x7bdate\x7d \x7b\x7b", []) :=
  ⟨by decide, by decide,
    processTemplate_identity_no_tokens "hello \x7b\x7bunknown\x7d\x7d world \x7bdate\x7d \x7b\x7b"
      ⟨2024, 1, 15⟩ (by decide) (by decide)⟩

/-- C8: for both weekly entry types and every valid date the weekly path
builds both the directory year and the filename year from the calendar year
while the week number is the ISO week number; for 2024-12-30 (ISO week 1 of
week-year 2025) the results are `weekly/2024/2024-W01-start.md` and
`weekly/2024/2024-W01-end.md`, mixing the two year reckonings. -/
theorem weekly_path_mixes_year_reckonings (d : DateSpec) (hv : d.isValid = true) :
    getFilePath "weekly-start" d =
      .ok ("weekly" ++ "/" ++ (pad4 d.year ++ "/" ++
        (pad4 d.year ++ "-" ++ ("W" ++ pad2 (isoWeek d)) ++ "-" ++
          "start" ++ ".md"))) ∧
    getFilePath "weekly-end" d =
      .ok ("weekly" ++ "/" ++ (pad4 d.year ++ "/" ++
        (pad4 d.year ++ "-" ++ ("W" ++ pad2 (isoWeek d)) ++ "-" ++
          "end" ++ ".md"))) ∧
    getFilePath "weekly-start" ⟨2024, 12, 30⟩ =
      .ok "weekly/2024/2024-W01-start.md" ∧
    getFilePath "weekly-end" ⟨2024, 12, 30⟩ =
      .ok "weekly/2024/2024-W01-end.md" ∧
    isoWeek ⟨2024, 12, 30⟩ = 1 ∧
    isoWeekYear ⟨2024, 12, 30⟩ = 2025 ∧
    (⟨2024, 12, 30⟩ : DateSpec).year = 2024 := by
  refine ⟨?_, ?_, by decide, by decide, by decide, by decide, rfl⟩ <;>
    (unfold getFilePath; rw [hv]; rfl)

/-- C8 witness: the theorem applied at 2024-12-30 itself, for both weekly
types. -/
theorem weekly_path_mixes_year_reckonings_witness :
    (⟨2024, 12, 30⟩ : DateSpec).isValid = true ∧
    getFilePath "weekly-start" ⟨2024, 12, 30⟩ =
      .ok "weekly/2024/2024-W01-start.md" ∧
    getFilePath "weekly-end" ⟨2024, 12, 30⟩ =
      .ok "weekly/2024/2024-W01-end.md" :=
  ⟨by decide,
    (weekly_path_mixes_year_reckonings ⟨2024, 12, 30⟩ (by decide)).2.2.1,
    (weekly_path_mixes_year_reckonings ⟨2024, 12, 30⟩ (by decide)).2.2.2.1⟩

/-- C9: the quick-capture path is `inbox/<YYYY-MM-DD>-captures.md` under the
vault, built with the same zero-padded `yyyy-MM-dd` formatting function the
resolver uses, and the appended line is exactly
`- <HH:MM> - <message>` (newline-terminated) with a two-digit 24-hour
timestamp. -/
theorem log_capture_path_and_entry (v : String) (now : ClockDateTime)
    (parts : List String) (hh : now.hour < 24) (hm : now.minute < 60) :
    logCaptureFile v now =
      v ++ "/" ++ ("inbox" ++ "/" ++ (fmt_yyyyMMdd now.date ++ "-captures.md")) ∧
    fmt_yyyyMMdd now.date =
      pad4 now.date.year ++ "-" ++ pad2 now.date.month ++ "-" ++ pad2 now.date.day ∧
    logEntry now parts =
      "- " ++ (pad2 now.hour ++ ":" ++ pad2 now.minute) ++ " - " ++
        String.intercalate " " parts ++ "\n" ∧
    (pad2 now.hour).length = 2 ∧ (pad2 now.minute).length = 2 := by
  refine ⟨rfl, rfl, rfl, ?_, ?_⟩
  · exact pad2_length now.hour (by omega)
  · exact pad2_length now.minute (by omega)

/-- C9 witness: a concrete capture at 09:05 on 2025-07-09. -/
theorem log_capture_path_and_entry_witness :
    (9 : Nat) < 24 ∧ (5 : Nat) < 60 ∧
    (logCaptureFile "/vault" ⟨⟨2025, 7, 9⟩, 9, 5⟩ =
      "/vault" ++ "/" ++ ("inbox" ++ "/" ++
        (fmt_yyyyMMdd ⟨2025, 7, 9⟩ ++ "-captures.md")) ∧
    fmt_yyyyMMdd (⟨2025, 7, 9⟩ : DateSpec) =
      pad4 2025 ++ "-" ++ pad2 7 ++ "-" ++ pad2 9 ∧
    logEntry ⟨⟨2025, 7, 9⟩, 9, 5⟩ ["captured", "thought"] =
      "- " ++ (pad2 9 ++ ":" ++ pad2 5) ++ " - " ++
        String.intercalate " " ["captured", "thought"] ++ "\n" ∧
    (pad2 (9 : Nat)).length = 2 ∧ (pad2 (5 : Nat)).length = 2) :=
  ⟨by decide, by decide,
    log_capture_path_and_entry "/vault" ⟨⟨2025, 7, 9⟩, 9, 5⟩
      ["captured", "thought"] (by decide) (by decide)⟩

/-- C10: `validateEntryType` accepts exactly the six tags, and for every
valid date `getFilePath` reaches its unknown-entry-type error exactly when
`validateEntryType` is false: validator and resolver agree on the same closed
enumeration. -/
theorem validateEntryType_agrees_getFilePath (type : String) (d : DateSpec)
    (hv : d.isValid = true) :
    (validateEntryType type = true ↔
      type ∈ (["morning", "evening", "weekly-start", "weekly-end",
        "monthly-start", "monthly-end"] : List String)) ∧
    (getFilePath type d = .error (.unknownEntryType type) ↔
      validateEntryType type = false) := by
  have hmem : validateEntryType type = true ↔
      type ∈ (["morning", "evening", "weekly-start", "weekly-end",
        "monthly-start", "monthly-end"] : List String) := by
    simp [validateEntryType]
  refine ⟨hmem, ?_, ?_⟩
  · intro h
    cases hb : validateEntryType type with
    | false => rfl
    | true =>
      obtain ⟨p, hp⟩ := getFilePath_ok_of_mem type d hv (hmem.mp hb)
      rw [hp] at h
      exact Except.noConfusion h
  · intro h
    refine getFilePath_unknown_of_not_mem type d hv ?_
    intro hmm
    rw [hmem.mpr hmm] at h
    exact Bool.noConfusion h

/-- C10 witness: agreement checked at a known tag on a valid date. -/
theorem validateEntryType_agrees_getFilePath_witness :
    (⟨2024, 3, 5⟩ : DateSpec).isValid = true ∧
    (validateEntryType "morning" = true ↔
      "morning" ∈ (["morning", "evening", "weekly-start", "weekly-end",
        "monthly-start", "monthly-end"] : List String)) ∧
    (getFilePath "morning" ⟨2024, 3, 5⟩ =
        .error (.unknownEntryType "morning") ↔
      validateEntryType "morning" = false) :=
  ⟨by decide, validateEntryType_agrees_getFilePath "morning" ⟨2024, 3, 5⟩ (by decide)⟩

end Rkv
